import Mathlib

/-!
Shallow embedding of the chipin expense-sharing application
(`src/users/models.py` and `src/chipin/views.py`).

Users are identified by natural-number ids.  Decimal amounts
(`max_spend`, `balance`, `total_spend`) are modelled as exact rationals.
Each request handler becomes a pure function from the relevant state to
the updated state together with a message tag that records the flash
message category and content of the Python handler.
-/

namespace Chipin

/-- A group of users.  `name` and `members` come from the `Group` model in
`src/users/models.py`.  The `admin` field is Modelled from the spec: the
`chipin/models.py` file that defines the `Group` used by the views is not in
the sources, and the spec's data model gives Group "one designated admin"
(one User) which the views compare against `request.user`. -/
structure Group where
  name : String
  admin : Nat
  members : List Nat
deriving DecidableEq

/-- The `Event` model of `src/users/models.py`: name, date, total_spend,
status (default "Pending"), a foreign key to its group and a many-to-many
member set.  The group is embedded directly, matching the views which always
load the event together with its group (`get_object_or_404(Event, id=event_id,
group=group)`). -/
structure Event where
  name : String
  date : String
  total_spend : Rat
  status : String
  group : Group
  members : List Nat
deriving DecidableEq

/-- The `Profile` model of `src/users/models.py`, restricted to the fields
the claims touch: primary key, nickname, max_spend and balance. -/
structure Profile where
  pk : Nat
  nickname : String
  max_spend : Rat
  balance : Rat
deriving DecidableEq

/-- `Event.calculate_share` from `src/users/models.py`: `total_spend`
divided by the number of group members, or 0 when the group is empty. -/
def calculate_share (e : Event) : Rat :=
  let members_count := e.group.members.length
  if members_count = 0 then 0
  else e.total_spend / members_count

/-- The member loop of `Event.check_status`: walks the group members,
returning early with status "Pending" and `false` at the first member whose
max_spend is below the share; otherwise sets status "Active" and returns
`true`.  `ms` maps a user id to that user's `profile.max_spend`. -/
def check_statusLoop (ms : Nat → Rat) (share : Rat) (e : Event) :
    List Nat → Event × Bool
  | [] => ({ e with status := "Active" }, true)
  | m :: rest =>
    if ms m < share then ({ e with status := "Pending" }, false)
    else check_statusLoop ms share e rest

/-- `Event.check_status` from `src/users/models.py`: recomputes the share
and iterates over the group's members. -/
def check_status (ms : Nat → Rat) (e : Event) : Event × Bool :=
  check_statusLoop ms (calculate_share e) e e.group.members

/-- The `join_event` view of `src/chipin/views.py`.  Order of checks as in
the source: eligibility (`max_spend < share`) first, then the
already-joined check; on success the user is added and `check_status`
is run on the updated event. -/
def join_event (ms : Nat → Rat) (requester : Nat) (e : Event) :
    Event × String :=
  let event_share := calculate_share e
  if ms requester < event_share then
    (e, "error: max spend too low")
  else if requester ∈ e.members then
    (e, "info: already joined")
  else
    let e1 : Event := { e with members := e.members ++ [requester] }
    ((check_status ms e1).fst, "success: joined")

/-- The `leave_event` view of `src/chipin/views.py`: rejects a requester who
is not an event member; otherwise removes them and reruns `check_status`. -/
def leave_event (ms : Nat → Rat) (requester : Nat) (e : Event) :
    Event × String :=
  if requester ∉ e.members then
    (e, "error: not a member")
  else
    let e1 : Event := { e with members := e.members.erase requester }
    ((check_status ms e1).fst, "success: left")

/-- The `update_event_status` view of `src/chipin/views.py`: admin-only;
recomputes the share and sets the status from `all(member.profile.max_spend
>= event_share for member in group.members.all())`. -/
def update_event_status (ms : Nat → Rat) (requester : Nat) (e : Event) :
    Event :=
  if requester ≠ e.group.admin then e
  else
    let event_share := calculate_share e
    let sufficient_funds :=
      e.group.members.all (fun m => decide (event_share ≤ ms m))
    if sufficient_funds then { e with status := "Active" }
    else { e with status := "Pending" }

/-- The `create_event` view of `src/chipin/views.py`, acting on the list of
existing events: admin-only; on success creates the event with the model's
default status "Pending" and no members. -/
def create_event (requester : Nat) (g : Group) (ename edate : String)
    (total : Rat) (events : List Event) : List Event :=
  if requester ≠ g.admin then events
  else
    events ++ [{ name := ename, date := edate, total_spend := total,
                 status := "Pending", group := g, members := [] }]

/-- The `delete_event` view of `src/chipin/views.py`, acting on the list of
existing events: admin-only; on success deletes the event. -/
def delete_event (requester : Nat) (e : Event) (events : List Event) :
    List Event :=
  if requester ≠ e.group.admin then events
  else events.erase e

/-- `Profile.clean` from `src/users/models.py`: `true` exactly when some
other profile (different primary key) already holds this nickname, i.e. when
the Python code raises `ValidationError`. -/
def profile_clean (db : List Profile) (p : Profile) : Bool :=
  db.any (fun q => q.nickname == p.nickname && q.pk != p.pk)

/-- Database write performed by a successful `Profile.save`: replace the
row with the same primary key, or append a fresh row. -/
def upsertProfile : List Profile → Profile → List Profile
  | [], p => [p]
  | q :: rest, p =>
    if q.pk = p.pk then p :: rest else q :: upsertProfile rest p

/-- `Profile.save` from `src/users/models.py`: runs `clean` first; a
validation error aborts the save (database unchanged, flag `false`),
otherwise the row is persisted (flag `true`). -/
def profile_save (db : List Profile) (p : Profile) :
    List Profile × Bool :=
  if profile_clean db p then (db, false)
  else (upsertProfile db p, true)

/-- A group comment (`Comment` of the missing `chipin/models.py`), restricted
to the fields the edit path of `group_detail` touches: author and content. -/
structure Comment where
  id : Nat
  userId : Nat
  content : String
deriving DecidableEq

/-- The comment-edit path of the `group_detail` view
(`src/chipin/views.py`): when the authenticated user is not the comment's
author the view redirects at once (flag `false`, comment untouched);
otherwise the form saves the new content with the requester as author. -/
def group_detail_edit (requester : Nat) (c : Comment)
    (newContent : String) : Comment × Bool :=
  if c.userId ≠ requester then (c, false)
  else ({ c with userId := requester, content := newContent }, true)

/-! ### Helper lemmas -/

/-- The early-exit member loop of `check_status` computes the same result as
an `all` over the member list. -/
theorem check_statusLoop_spec (ms : Nat → Rat) (share : Rat) (e : Event)
    (l : List Nat) :
    check_statusLoop ms share e l =
      if l.all (fun m => decide (share ≤ ms m)) then
        ({ e with status := "Active" }, true)
      else ({ e with status := "Pending" }, false) := by
  induction l with
  | nil => simp [check_statusLoop]
  | cons m rest ih =>
    simp only [check_statusLoop, List.all_cons]
    by_cases h : ms m < share
    · simp [h, not_le.mpr h]
    · simp [h, not_lt.mp h, ih]

/-- Boolean affordability over a member list, read back as a proposition. -/
theorem all_afford_iff (ms : Nat → Rat) (share : Rat) (l : List Nat) :
    (l.all (fun m => decide (share ≤ ms m)) = true) ↔
      ∀ m ∈ l, share ≤ ms m := by
  simp [List.all_eq_true]

/-- `check_status` only writes the status field: members are untouched. -/
theorem check_status_fst_members (ms : Nat → Rat) (e : Event) :
    (check_status ms e).fst.members = e.members := by
  rw [check_status, check_statusLoop_spec]
  split <;> rfl

/-- `check_status` only writes the status field: the group is untouched. -/
theorem check_status_fst_group (ms : Nat → Rat) (e : Event) :
    (check_status ms e).fst.group = e.group := by
  rw [check_status, check_statusLoop_spec]
  split <;> rfl

/-- An ineligible requester (max_spend below the share) is turned away by
`join_event` with the event untouched. -/
theorem join_event_low_spend (ms : Nat → Rat) (r : Nat) (e : Event)
    (h : ms r < calculate_share e) :
    join_event ms r e = (e, "error: max spend too low") := by
  simp [join_event, h]

/-- When the requester is the admin, `update_event_status` reduces to the
`all`-test over the group members. -/
theorem update_event_status_admin (ms : Nat → Rat) (r : Nat) (e : Event)
    (h : r = e.group.admin) :
    update_event_status ms r e =
      if e.group.members.all (fun m => decide (calculate_share e ≤ ms m)) then
        { e with status := "Active" }
      else { e with status := "Pending" } := by
  simp [update_event_status, h]

/-! ### Claims -/

/-- Claim C1: `Event.check_status` returns true iff every current member of
the event's group has `profile.max_spend` at least the share computed by
`calculate_share`; as a side effect the event's status is set to "Active"
when it returns true and to "Pending" when it returns false. -/
theorem check_status_iff_all_afford (ms : Nat → Rat) (e : Event) :
    ((check_status ms e).snd = true ↔
      ∀ m ∈ e.group.members, calculate_share e ≤ ms m) ∧
    ((check_status ms e).fst.status =
      if (check_status ms e).snd then "Active" else "Pending") := by
  rw [check_status, check_statusLoop_spec]
  cases hb : e.group.members.all
      (fun m => decide (calculate_share e ≤ ms m)) with
  | true =>
    have hall := (all_afford_iff ms (calculate_share e) e.group.members).mp hb
    simp [hb]
    exact hall
  | false =>
    have hnall : ¬ ∀ m ∈ e.group.members, calculate_share e ≤ ms m := by
      intro h
      have := (all_afford_iff ms (calculate_share e) e.group.members).mpr h
      simp [hb] at this
    simp [hb, hnall]

/-- Claim C2: `Event.calculate_share` returns 0 when the event's group has
no members, and `total_spend` divided by the member count otherwise. -/
theorem calculate_share_cases (e : Event) :
    (e.group.members.length = 0 → calculate_share e = 0) ∧
    (0 < e.group.members.length →
      calculate_share e = e.total_spend / (e.group.members.length : Rat)) := by
  constructor
  · intro h
    simp [calculate_share, h]
  · intro h
    simp [calculate_share, Nat.pos_iff_ne_zero.mp h]

/-- Event with a two-member group, for the C2 witness. -/
def evC2a : Event :=
  { name := "e", date := "d", total_spend := 100, status := "Pending",
    group := { name := "g", admin := 0, members := [1, 2] }, members := [] }

/-- Event whose group has no members, for the C2 witness. -/
def evC2b : Event :=
  { name := "e", date := "d", total_spend := 100, status := "Pending",
    group := { name := "g", admin := 0, members := [] }, members := [] }

/-- Witness for C2 at a concrete event: a two-member group with
total_spend 100 yields a share of total_spend over 2, an empty group a
share of 0. -/
theorem calculate_share_cases_witness :
    calculate_share evC2a =
      evC2a.total_spend / ((evC2a.group.members.length : Nat) : Rat) ∧
    calculate_share evC2b = 0 :=
  ⟨(calculate_share_cases evC2a).2 (by simp [evC2a]),
   (calculate_share_cases evC2b).1 (by simp [evC2b])⟩

/-- Max-spend table for the C3 scenario: user 1 has 100, everyone else 0. -/
def msC3 : Nat → Rat := fun u => if u = 1 then 100 else 0

/-- C3 scenario: group with admin 9 and members 1 and 2; the event costs 100
(share 50) and only user 1 has joined it. -/
def evC3 : Event :=
  { name := "e", date := "d", total_spend := 100, status := "Pending",
    group := { name := "g", admin := 9, members := [1, 2] }, members := [1] }

/-- Counterexample to C3 as stated: in the C3 scenario the only event member
(user 1, max_spend 100) can afford the share of 50, yet the admin-triggered
`update_event_status` writes "Pending", because it quantifies over the
group's members and group member 2 has max_spend 0 < 50.  So the handler
does not set "Active" exactly when every event member affords the share. -/
theorem update_event_status_not_event_members :
    evC3.members = [1] ∧ calculate_share evC3 ≤ msC3 1 ∧
    (update_event_status msC3 9 evC3).status = "Pending" := by
  have hshare : calculate_share evC3 = 50 := by
    norm_num [calculate_share, evC3]
  refine ⟨rfl, by rw [hshare]; norm_num [msC3], ?_⟩
  rw [update_event_status_admin msC3 9 evC3 rfl]
  have hmem : evC3.group.members = [1, 2] := rfl
  have h2 : ¬ (calculate_share evC3 ≤ msC3 2) := by
    rw [hshare]; norm_num [msC3]
  have hall : evC3.group.members.all
      (fun m => decide (calculate_share evC3 ≤ msC3 m)) = false := by
    rw [hmem]
    simp [h2]
  simp [hall]

/-- Claim C3 as amended: when the requester is the group admin,
`update_event_status` sets the status to "Active" exactly when every member
of the event's GROUP (not merely the users who joined the event) has
max_spend at least the computed share, and to "Pending" otherwise. -/
theorem update_event_status_group_afford (ms : Nat → Rat) (r : Nat)
    (e : Event) (h : r = e.group.admin) :
    ((update_event_status ms r e).status = "Active" ↔
      ∀ m ∈ e.group.members, calculate_share e ≤ ms m) ∧
    ((update_event_status ms r e).status = "Pending" ↔
      ¬ ∀ m ∈ e.group.members, calculate_share e ≤ ms m) := by
  rw [update_event_status_admin ms r e h]
  cases hb : e.group.members.all
      (fun m => decide (calculate_share e ≤ ms m)) with
  | true =>
    have hall := (all_afford_iff ms (calculate_share e) e.group.members).mp hb
    constructor
    · simp [hb]
      exact hall
    · simp [hb]
      exact hall
  | false =>
    have hnall : ¬ ∀ m ∈ e.group.members, calculate_share e ≤ ms m := by
      intro h2
      have := (all_afford_iff ms (calculate_share e) e.group.members).mpr h2
      simp [hb] at this
    push_neg at hnall
    constructor
    · simp [hb]
      exact hnall
    · simp [hb]
      exact hnall

/-- Witness for the amended C3 in the C3 scenario, with requester 9 being
the group admin. -/
theorem update_event_status_group_afford_witness :
    (9 : Nat) = evC3.group.admin ∧
    ((update_event_status msC3 9 evC3).status = "Active" ↔
      ∀ m ∈ evC3.group.members, calculate_share evC3 ≤ msC3 m) :=
  ⟨rfl, (update_event_status_group_afford msC3 9 evC3 rfl).1⟩

/-- Max-spend table for the C4 scenario: everyone has 100. -/
def msC4 : Nat → Rat := fun _ => 100

/-- C4 scenario: the group has the single member 1, the event costs 50
(share 50) and nobody has joined yet.  User 5 is not a group member. -/
def evC4 : Event :=
  { name := "e", date := "d", total_spend := 50, status := "Pending",
    group := { name := "g", admin := 1, members := [1] }, members := [] }

/-- Counterexample to C4 as stated: `join_event` never checks group
membership, so user 5 — who is not a member of the event's group — is added
to the event, and the resulting member set is not a subset of the group's
member set. -/
theorem join_event_adds_non_group_member :
    (5 : Nat) ∉ evC4.group.members ∧
    (join_event msC4 5 evC4).fst.members = [5] ∧
    ¬ ∀ x ∈ (join_event msC4 5 evC4).fst.members, x ∈ evC4.group.members := by
  have hshare : calculate_share evC4 = 50 := by
    norm_num [calculate_share, evC4]
  have h1 : ¬ (msC4 5 < calculate_share evC4) := by
    rw [hshare]; norm_num [msC4]
  have h2 : (5 : Nat) ∉ evC4.members := by simp [evC4]
  have hjoin : (join_event msC4 5 evC4).fst.members = [5] := by
    simp only [join_event, if_neg h1, if_neg h2]
    rw [check_status_fst_members]
    simp [evC4]
  refine ⟨by simp [evC4], hjoin, ?_⟩
  intro hall
  have h5 := hall 5 (by rw [hjoin]; simp)
  simp [evC4] at h5

/-- Claim C4 as amended: `join_event` itself performs no group-membership
check, so the subset invariant "event members ⊆ group members" is preserved
by `join_event` only under the assumption that the requester is a group
member (it holds for any rejected request and for any accepted request by a
group member). -/
theorem join_event_preserves_subset (ms : Nat → Rat) (r : Nat) (e : Event)
    (hsub : ∀ x ∈ e.members, x ∈ e.group.members)
    (hr : r ∈ e.group.members) :
    ∀ x ∈ (join_event ms r e).fst.members, x ∈ e.group.members := by
  intro x hx
  by_cases h1 : ms r < calculate_share e
  · rw [join_event_low_spend ms r e h1] at hx
    exact hsub x hx
  · by_cases h2 : r ∈ e.members
    · simp only [join_event, if_neg h1, if_pos h2] at hx
      exact hsub x hx
    · simp only [join_event, if_neg h1, if_neg h2] at hx
      rw [check_status_fst_members] at hx
      rcases List.mem_append.mp hx with h | h
      · exact hsub x h
      · have : x = r := by simpa using h
        rw [this]
        exact hr

/-- Witness for the amended C4: in the C4 scenario the admin (user 1, a
group member) joins an event with no members yet; the subset invariant is
preserved. -/
theorem join_event_preserves_subset_witness :
    (∀ x ∈ evC4.members, x ∈ evC4.group.members) ∧
    (1 : Nat) ∈ evC4.group.members ∧
    ∀ x ∈ (join_event msC4 1 evC4).fst.members, x ∈ evC4.group.members :=
  ⟨by simp [evC4], by simp [evC4],
   join_event_preserves_subset msC4 1 evC4 (by simp [evC4]) (by simp [evC4])⟩

/-- Max-spend table for the C5 scenario: everyone has 10. -/
def msC5 : Nat → Rat := fun _ => 10

/-- C5 scenario: two group members, total_spend 100, share 50; the
requester's max_spend of 10 is below the share. -/
def evC5 : Event :=
  { name := "e", date := "d", total_spend := 100, status := "Pending",
    group := { name := "g", admin := 1, members := [1, 2] }, members := [] }

/-- Claim C5: a requester whose max_spend is strictly below the current
computed share is rejected by `join_event` with the eligibility error
message, and the event (in particular its member set) is unchanged. -/
theorem join_event_rejects_ineligible (ms : Nat → Rat) (r : Nat) (e : Event)
    (h : ms r < calculate_share e) :
    (join_event ms r e).fst = e ∧
    (join_event ms r e).snd = "error: max spend too low" := by
  rw [join_event_low_spend ms r e h]
  exact ⟨rfl, rfl⟩

/-- Witness for C5: user 1 with max_spend 10 cannot join the C5 event whose
share is 50; the event is returned unchanged with the error message. -/
theorem join_event_rejects_ineligible_witness :
    msC5 1 < calculate_share evC5 ∧
    (join_event msC5 1 evC5).fst = evC5 ∧
    (join_event msC5 1 evC5).snd = "error: max spend too low" := by
  have h : msC5 1 < calculate_share evC5 := by
    have hshare : calculate_share evC5 = 50 := by
      norm_num [calculate_share, evC5]
    rw [hshare]; norm_num [msC5]
  exact ⟨h, join_event_rejects_ineligible msC5 1 evC5 h⟩

/-- Max-spend table for the C6 scenario: user 1 has 10, everyone else 100. -/
def msC6 : Nat → Rat := fun u => if u = 1 then 10 else 100

/-- C6 scenario: user 1 joined the event when it was cheaper; the group now
has two members and total_spend 100, so the share is 50, above user 1's
max_spend of 10. -/
def evC6 : Event :=
  { name := "e", date := "d", total_spend := 100, status := "Active",
    group := { name := "g", admin := 2, members := [1, 2] }, members := [1] }

/-- Counterexample to C6 as stated: user 1 is already an event member, yet a
repeated `join_event` does not produce the "already joined" outcome — the
eligibility check runs first, and user 1's max_spend of 10 is below the
share of 50, so the eligibility error is produced instead.  (The member set
is still unchanged.) -/
theorem join_event_already_member_other_message :
    (1 : Nat) ∈ evC6.members ∧
    (join_event msC6 1 evC6).snd = "error: max spend too low" ∧
    (join_event msC6 1 evC6).snd ≠ "info: already joined" := by
  have hshare : calculate_share evC6 = 50 := by
    norm_num [calculate_share, evC6]
  have h : msC6 1 < calculate_share evC6 := by
    rw [hshare]; norm_num [msC6]
  rw [join_event_low_spend msC6 1 evC6 h]
  exact ⟨by simp [evC6], rfl, by simp⟩

/-- Claim C6 as amended: state-conflict failures leave membership
unchanged.  A join by a user who is already an event member leaves the
event unchanged, and yields the "already joined" outcome provided the user
also passes the eligibility check (max_spend at least the share; an
ineligible repeat joiner receives the eligibility error instead, still with
no change).  A leave by a user who is not an event member is rejected with
the event unchanged. -/
theorem state_conflict_membership_unchanged (ms : Nat → Rat) (r r2 : Nat)
    (e e2 : Event) (hmem : r ∈ e.members) (hnot : r2 ∉ e2.members) :
    (join_event ms r e).fst = e ∧
    (calculate_share e ≤ ms r →
      (join_event ms r e).snd = "info: already joined") ∧
    leave_event ms r2 e2 = (e2, "error: not a member") := by
  refine ⟨?_, ?_, ?_⟩
  · by_cases h1 : ms r < calculate_share e
    · rw [join_event_low_spend ms r e h1]
    · simp [join_event, h1, hmem]
  · intro hle
    have h1 : ¬ (ms r < calculate_share e) := not_lt.mpr hle
    simp [join_event, h1, hmem]
  · simp [leave_event, hnot]

/-- Witness for the amended C6: in the C4 scenario user 1 (max_spend 100,
share 50) joins twice; the second join is the "already joined" no-op, and a
leave by user 7 (never a member) is rejected. -/
theorem state_conflict_membership_unchanged_witness :
    (1 : Nat) ∈ (join_event msC4 1 evC4).fst.members ∧
    (7 : Nat) ∉ evC4.members ∧
    (join_event msC4 1 (join_event msC4 1 evC4).fst).fst =
      (join_event msC4 1 evC4).fst ∧
    leave_event msC4 7 evC4 = (evC4, "error: not a member") := by
  have hshare : calculate_share evC4 = 50 := by
    norm_num [calculate_share, evC4]
  have h1 : ¬ (msC4 1 < calculate_share evC4) := by
    rw [hshare]; norm_num [msC4]
  have h2 : (1 : Nat) ∉ evC4.members := by simp [evC4]
  have hjoin : (join_event msC4 1 evC4).fst.members = [1] := by
    simp only [join_event, if_neg h1, if_neg h2]
    rw [check_status_fst_members]
    simp [evC4]
  have hmem : (1 : Nat) ∈ (join_event msC4 1 evC4).fst.members := by
    rw [hjoin]; simp
  have hnot : (7 : Nat) ∉ evC4.members := by simp [evC4]
  have h := state_conflict_membership_unchanged msC4 1 7
    (join_event msC4 1 evC4).fst evC4 hmem hnot
  exact ⟨hmem, hnot, h.1, h.2.2⟩

/-- Claim C7: only the group admin may create, delete, or force-recompute
the status of an event; a non-admin request leaves the event list and the
event itself entirely unchanged. -/
theorem admin_only_operations (ms : Nat → Rat) (r : Nat) (g : Group)
    (e : Event) (ename edate : String) (total : Rat) (events : List Event)
    (hg : r ≠ g.admin) (he : r ≠ e.group.admin) :
    create_event r g ename edate total events = events ∧
    update_event_status ms r e = e ∧
    delete_event r e events = events := by
  refine ⟨?_, ?_, ?_⟩
  · simp [create_event, hg]
  · simp [update_event_status, he]
  · simp [delete_event, he]

/-- Witness for C7: user 7 is not the admin (user 1) of the C4 scenario
group, so creating, recomputing and deleting all leave the state alone. -/
theorem admin_only_operations_witness :
    (7 : Nat) ≠ evC4.group.admin ∧
    create_event 7 evC4.group "x" "d" 10 [evC4] = [evC4] ∧
    update_event_status msC4 7 evC4 = evC4 ∧
    delete_event 7 evC4 [evC4] = [evC4] := by
  have hg : (7 : Nat) ≠ evC4.group.admin := by simp [evC4]
  have h := admin_only_operations msC4 7 evC4.group evC4 "x" "d" 10 [evC4]
    hg hg
  exact ⟨hg, h.1, h.2.1, h.2.2⟩

/-- `Profile.clean` raises (returns true) exactly when some other stored
profile, with a different primary key, holds the same nickname. -/
theorem profile_clean_iff (db : List Profile) (p : Profile) :
    profile_clean db p = true ↔
      ∃ q ∈ db, q.nickname = p.nickname ∧ q.pk ≠ p.pk := by
  simp [profile_clean, List.any_eq_true]

/-- Claim C8: saving a Profile whose nickname equals that of any other
existing Profile (different primary key) aborts with a validation error and
no state change; when no other profile holds the nickname the save goes
through. -/
theorem profile_save_nickname_unique (db : List Profile) (p : Profile) :
    ((∃ q ∈ db, q.nickname = p.nickname ∧ q.pk ≠ p.pk) →
      profile_save db p = (db, false)) ∧
    ((∀ q ∈ db, q.nickname = p.nickname → q.pk = p.pk) →
      profile_save db p = (upsertProfile db p, true)) := by
  constructor
  · intro h
    simp [profile_save, (profile_clean_iff db p).mpr h]
  · intro h
    have hfalse : profile_clean db p = false := by
      cases hb : profile_clean db p
      · rfl
      · obtain ⟨q, hq, h1, h2⟩ := (profile_clean_iff db p).mp hb
        exact absurd (h q hq h1) h2
    simp [profile_save, hfalse]

/-- Stored profile for the C8 witness. -/
def pAlice : Profile :=
  { pk := 1, nickname := "al", max_spend := 100, balance := 100 }

/-- Fresh profile with an unused nickname, for the C8 witness. -/
def pBob : Profile :=
  { pk := 2, nickname := "bo", max_spend := 100, balance := 100 }

/-- Fresh profile that reuses the stored nickname, for the C8 witness. -/
def pBobDup : Profile :=
  { pk := 2, nickname := "al", max_spend := 100, balance := 100 }

/-- Witness for C8: against a database holding only pAlice, saving a
profile that reuses the nickname "al" under primary key 2 is aborted, while
saving one with the fresh nickname "bo" succeeds and appends the row. -/
theorem profile_save_nickname_unique_witness :
    profile_save [pAlice] pBobDup = ([pAlice], false) ∧
    profile_save [pAlice] pBob = ([pAlice, pBob], true) := by
  constructor
  · exact (profile_save_nickname_unique [pAlice] pBobDup).1
      ⟨pAlice, by simp, by simp [pAlice, pBobDup]⟩
  · have h := (profile_save_nickname_unique [pAlice] pBob).2 (by
      intro q hq h1
      simp only [List.mem_singleton] at hq
      subst hq
      simp [pAlice, pBob] at h1)
    rw [h]
    simp [upsertProfile, pAlice, pBob]

/-- Claim C9: an edit request for a comment by an authenticated user who is
not the author is rejected by an immediate redirect, and the comment is
left unchanged. -/
theorem comment_edit_requires_author (r : Nat) (c : Comment) (s : String)
    (h : c.userId ≠ r) :
    group_detail_edit r c s = (c, false) := by
  simp [group_detail_edit, h]

/-- Comment authored by user 1, for the C9 witness. -/
def cC9 : Comment := { id := 1, userId := 1, content := "hello" }

/-- Witness for C9: user 2 tries to edit user 1's comment; the request is
redirected and the comment keeps its content. -/
theorem comment_edit_requires_author_witness :
    cC9.userId ≠ 2 ∧ group_detail_edit 2 cC9 "bye" = (cC9, false) :=
  ⟨by simp [cC9], comment_edit_requires_author 2 cC9 "bye" (by simp [cC9])⟩

/-- Claim C10: the two status-derivation paths agree — when invoked by the
group admin, `update_event_status` writes exactly the status that
`Event.check_status` writes on the same state, both quantifying over the
group's member set with the same share. -/
theorem status_paths_equivalent (ms : Nat → Rat) (r : Nat) (e : Event)
    (h : r = e.group.admin) :
    (update_event_status ms r e).status = (check_status ms e).fst.status := by
  rw [update_event_status_admin ms r e h, check_status, check_statusLoop_spec]
  split <;> rfl

/-- Witness for C10 in the C3 scenario: the admin-triggered recomputation
and `check_status` write the same status. -/
theorem status_paths_equivalent_witness :
    (9 : Nat) = evC3.group.admin ∧
    (update_event_status msC3 9 evC3).status =
      (check_status msC3 evC3).fst.status :=
  ⟨rfl, status_paths_equivalent msC3 9 evC3 rfl⟩

end Chipin
